import Mathlib

/-
Verification of the auto-tmp-file-remover plugin (src/main.ts) against its
natural-language specification.  The TypeScript source is shallowly embedded:
`runCleanUp`, `startInterval`, `toMilliSec` and the `loadSettings` merge are
translated into pure Lean functions over an explicit host/vault model, and the
claimed properties are proved about those functions.
-/

namespace AutoTmpFileRemover

/-- Settings record of the plugin, mirroring `AutoTempCleanerSettings` in
main.ts (the field `ttlMinites` keeps the spelling used by the source). -/
structure AutoTempCleanerSettings where
  targetFolder : String
  ttlMinites : Int
  checkInterval : Int
  confirmed : Bool
deriving Repr, DecidableEq

/-- Default settings, mirroring `DEFAULT_SETTINGS` in main.ts. -/
def DEFAULT_SETTINGS : AutoTempCleanerSettings :=
  { targetFolder := "tmp", ttlMinites := 1440, checkInterval := 0, confirmed := false }

/-- Conversion from minutes to milliseconds, mirroring `toMilliSec` in main.ts. -/
def toMilliSec (minitues : Int) : Int :=
  minitues * 60000

/-- An entry of the vault file tree: a `TFile` carries its path, extension and
creation time in epoch milliseconds (`stat.ctime`); a `TFolder` carries its path
and the list of its direct children. -/
inductive VaultEntry where
  | file (path : String) (extension : String) (ctime : Int)
  | folder (path : String) (children : List VaultEntry)
deriving Repr

/-- The host (Obsidian app) capabilities consumed by `runCleanUp`:
path normalization and lookup of a filesystem entry by path. -/
structure Host where
  normalizePath : String → String
  getAbstractFileByPath : String → Option VaultEntry

/-- Notice text emitted by `startInterval` when `checkInterval` is 0. -/
def stoppedNotice : String :=
  "Auto Temp Cleaner has been stopped."

/-- Notice text emitted by `startInterval` when `checkInterval` is nonzero. -/
def runningNotice (n : Int) : String :=
  "Run Auto Temp Cleaner every " ++ toString n ++ " minutes."

/-- Warning notice emitted by `runCleanUp` when the settings are not confirmed. -/
def warningNotice : String :=
  "This plugin automatically deletes files in the specified folder.\nPlease check the settings."

/-- Summary notice emitted by `runCleanUp` after deleting files: the deleted
paths joined by newlines. -/
def deletedNotice (delFiles : List String) : String :=
  "Deleted files: \n" ++ String.intercalate "\n" delFiles

/-- Body of the deletion loop of `runCleanUp` for one direct child: returns
`some path` when the child is a `TFile` whose extension is exactly "md" and
whose age exceeds the TTL (strict comparison), i.e. exactly when the source
calls `trashFile` on it; `none` otherwise. -/
def cleanUpChild (now ttlMillis : Int) (child : VaultEntry) : Option String :=
  match child with
  | VaultEntry.file p ext ctime =>
    if ext = "md" then
      if now - ctime > ttlMillis then some p else none
    else none
  | VaultEntry.folder _ _ => none

/-- Observable outcome of one sweep: the paths passed to `trashFile` (in
iteration order) and the notices emitted.  `trashFile` is the only file
operation the sweep performs, so `deleted = []` means no file was touched. -/
structure SweepResult where
  deleted : List String
  notices : List String
deriving Repr, DecidableEq

/-- The sweep operation, mirroring `runCleanUp` in main.ts: the interval
guard, the confirmation guard, the folder lookup (`instanceof TFolder` fails
both when the lookup returns null and when it returns a file), the deletion
loop over the direct children, and the summary notice. -/
def runCleanUp (app : Host) (s : AutoTempCleanerSettings) (now : Int) : SweepResult :=
  if s.checkInterval = 0 then { deleted := [], notices := [] }
  else if s.confirmed = false then { deleted := [], notices := [warningNotice] }
  else
    match app.getAbstractFileByPath (app.normalizePath s.targetFolder) with
    | some (VaultEntry.folder _ children) =>
      let ttlMillis := toMilliSec s.ttlMinites
      let delFiles := children.filterMap (cleanUpChild now ttlMillis)
      { deleted := delFiles,
        notices := if delFiles.length > 0 then [deletedNotice delFiles] else [] }
    | _ => { deleted := [], notices := [] }

/-- Observable outcome of `startInterval`: the scheduler notice, the result of
the immediate sweep, and the period (milliseconds) passed to
`window.setInterval`.  `scheduledPeriodMs = some p` means a repeating
invocation of `runCleanUp` is pending with period `p`; `none` would mean no
timer was scheduled.  The source calls `window.setInterval` unconditionally,
so the field is always `some`. -/
structure StartResult where
  notices : List String
  immediateSweep : SweepResult
  scheduledPeriodMs : Option Int
deriving Repr, DecidableEq

/-- The scheduler start operation, mirroring `startInterval` in main.ts:
emits the stopped or running notice, invokes one immediate sweep, then calls
`window.setInterval(() => this.runCleanUp(), toMilliSec(checkInterval))`
unconditionally, storing the handle in `intervalId`. -/
def startInterval (app : Host) (s : AutoTempCleanerSettings) (now : Int) : StartResult :=
  { notices := [if s.checkInterval = 0 then stoppedNotice else runningNotice s.checkInterval],
    immediateSweep := runCleanUp app s now,
    scheduledPeriodMs := some (toMilliSec s.checkInterval) }

/-- Effect of the trashFile calls of one sweep on a list of children: every
direct-child file whose path was deleted is removed; folders (and so all files
inside subfolders) are untouched.  `removeDeleted cs [] = cs` expresses that a
sweep that deleted nothing left the vault unchanged. -/
def removeDeleted (children : List VaultEntry) (dels : List String) : List VaultEntry :=
  children.filter (fun c =>
    match c with
    | VaultEntry.file p _ _ => !(dels.contains p)
    | VaultEntry.folder _ _ => true)

/-- A JSON-serialisable property value of the persisted settings record. -/
inductive SettingValue where
  | str (s : String)
  | num (n : Int)
  | boolean (b : Bool)
deriving Repr, DecidableEq

/-- A JavaScript-style object as an association list of own enumerable
properties in insertion order; keys are unique in every object built from `[]`
by `setProp`. -/
abbrev JsObject : Type := List (String × SettingValue)

/-- Property read: the value at the first occurrence of the key, `none` when
the object has no such property. -/
def getProp : JsObject → String → Option SettingValue
  | [], _ => none
  | kv :: rest, k => if kv.1 = k then some kv.2 else getProp rest k

/-- Property write, as performed by `Object.assign` for each source property:
overwrite the existing property in place, or append a new one. -/
def setProp : JsObject → String → SettingValue → JsObject
  | [], k, v => [(k, v)]
  | kv :: rest, k, v => if kv.1 = k then (k, v) :: rest else kv :: setProp rest k v

/-- `Object.assign(target, source)`: copy every own enumerable property of
`source` onto `target`, in order, later writes overriding earlier ones. -/
def objectAssign (target source : JsObject) : JsObject :=
  source.foldl (fun acc kv => setProp acc kv.1 kv.2) target

/-- `DEFAULT_SETTINGS` as the persisted key-value record it is spread from in
`Object.assign({}, DEFAULT_SETTINGS, await this.loadData())`. -/
def defaultSettingsObj : JsObject :=
  [("targetFolder", SettingValue.str "tmp"),
   ("ttlMinites", SettingValue.num 1440),
   ("checkInterval", SettingValue.num 0),
   ("confirmed", SettingValue.boolean false)]

/-- The settings load, mirroring `loadSettings` in main.ts:
`Object.assign({}, DEFAULT_SETTINGS, await this.loadData())`, where `loadData`
yields `none` when no data was ever persisted (`Object.assign` ignores a
null source, copying no properties from it). -/
def loadSettings (data : Option JsObject) : JsObject :=
  objectAssign (objectAssign [] defaultSettingsObj)
    (match data with
     | some d => d
     | none => [])

/-- The `instanceof TFolder` test on a lookup result: true exactly when the
lookup returned a folder. -/
def isTFolder : Option VaultEntry → Bool
  | some (VaultEntry.folder _ _) => true
  | _ => false

/-- Concrete settings of the scenario in the spec: target folder "tmp",
TTL 60 minutes, interval 10 minutes, confirmed. -/
def sampleSettings : AutoTempCleanerSettings :=
  { targetFolder := "tmp", ttlMinites := 60, checkInterval := 10, confirmed := true }

/-- The sample settings after the interval is changed to 0. -/
def sampleSettingsStopped : AutoTempCleanerSettings :=
  { targetFolder := "tmp", ttlMinites := 60, checkInterval := 0, confirmed := true }

/-- The sample settings with a TTL of 0 minutes (below the 1 to 10080 bound the
settings UI would enforce). -/
def sampleSettingsTtlZero : AutoTempCleanerSettings :=
  { targetFolder := "tmp", ttlMinites := 0, checkInterval := 10, confirmed := true }

/-- A fixed current time in epoch milliseconds for the scenario. -/
def sampleNow : Int := 10000000

/-- Direct children of the sample tmp folder: an md file two hours old, an md
file exactly at the one-hour TTL boundary, a txt file two hours old, and a
subfolder holding an old md file. -/
def sampleChildren : List VaultEntry :=
  [VaultEntry.file "tmp/a.md" "md" (sampleNow - 7200000),
   VaultEntry.file "tmp/b.md" "md" (sampleNow - 3600000),
   VaultEntry.file "tmp/c.txt" "txt" (sampleNow - 7200000),
   VaultEntry.folder "tmp/sub" [VaultEntry.file "tmp/sub/old.md" "md" 0]]

/-- A concrete host whose vault holds exactly the sample tmp folder. -/
def sampleHost : Host :=
  { normalizePath := fun p => p,
    getAbstractFileByPath := fun p =>
      if p = "tmp" then some (VaultEntry.folder "tmp" sampleChildren) else none }

/-- A concrete host whose vault resolves no path at all. -/
def emptyHost : Host :=
  { normalizePath := fun p => p,
    getAbstractFileByPath := fun _ => none }

/-- A sweep that deleted nothing leaves every child list unchanged. -/
theorem removeDeleted_nil (cs : List VaultEntry) : removeDeleted cs [] = cs := by
  unfold removeDeleted
  rw [List.filter_eq_self]
  intro c _
  cases c <;> simp

/-- Characterisation of the loop body: `cleanUpChild` fires exactly on an md
file strictly older than the TTL. -/
theorem cleanUpChild_eq_some (now ttlMillis : Int) (c : VaultEntry) (p : String) :
    cleanUpChild now ttlMillis c = some p ↔
      ∃ ctime, c = VaultEntry.file p "md" ctime ∧ now - ctime > ttlMillis := by
  constructor
  · intro h
    cases c with
    | folder q ch => exact absurd h (by simp [cleanUpChild])
    | file q ext ct =>
      by_cases hext : ext = "md"
      · by_cases hage : now - ct > ttlMillis
        · simp only [cleanUpChild, if_pos hext, if_pos hage] at h
          injection h with h2
          subst h2
          subst hext
          exact ⟨ct, rfl, hage⟩
        · simp [cleanUpChild, hext, hage] at h
      · simp [cleanUpChild, hext] at h
  · rintro ⟨ctime, rfl, hage⟩
    simp [cleanUpChild, hage]

/-- Characterisation of the deleted list of a sweep that reaches the deletion
loop: a path is deleted exactly when some direct child is an md file with that
path, strictly older than the TTL. -/
theorem mem_runCleanUp_deleted (app : Host) (s : AutoTempCleanerSettings) (now : Int)
    (hI : s.checkInterval ≠ 0) (hc : s.confirmed = true)
    (fp : String) (cs : List VaultEntry)
    (hf : app.getAbstractFileByPath (app.normalizePath s.targetFolder)
          = some (VaultEntry.folder fp cs)) (p : String) :
    p ∈ (runCleanUp app s now).deleted ↔
      ∃ ctime, VaultEntry.file p "md" ctime ∈ cs ∧ now - ctime > s.ttlMinites * 60000 := by
  unfold runCleanUp
  rw [if_neg hI, if_neg (by simp [hc]), hf]
  simp only [List.mem_filterMap, cleanUpChild_eq_some, toMilliSec]
  constructor
  · rintro ⟨c, hmem, ctime, rfl, hage⟩
    exact ⟨ctime, hmem, hage⟩
  · rintro ⟨ctime, hmem, hage⟩
    exact ⟨VaultEntry.file p "md" ctime, hmem, ctime, rfl, hage⟩

/-- Reading back through a property write: the written key now holds the new
value, every other key is unchanged. -/
theorem getProp_setProp (o : JsObject) (k : String) (v : SettingValue) (k2 : String) :
    getProp (setProp o k v) k2 = if k2 = k then some v else getProp o k2 := by
  induction o with
  | nil =>
    rcases eq_or_ne k2 k with h | h
    · simp [setProp, getProp, h]
    · simp [setProp, getProp, h, Ne.symm h]
  | cons kv rest ih =>
    rcases eq_or_ne kv.1 k with hk | hk
    · simp only [setProp, if_pos hk, getProp]
      rcases eq_or_ne k2 k with h | h
      · simp [h]
      · simp [h, Ne.symm h, hk]
    · simp only [setProp, if_neg hk, getProp, ih]
      rcases eq_or_ne kv.1 k2 with h2 | h2
      · have hne : k2 ≠ k := h2 ▸ hk
        simp [h2, hne]
      · simp [h2]

/-- A key that occurs in no property of an object reads back as `none`. -/
theorem getProp_eq_none (o : JsObject) (k : String) (h : k ∉ o.map Prod.fst) :
    getProp o k = none := by
  induction o with
  | nil => rfl
  | cons kv rest ih =>
    simp only [List.map_cons, List.mem_cons] at h
    push_neg at h
    simp only [getProp]
    rw [if_neg (fun hh => h.1 hh.symm), ih h.2]

/-- Lookup semantics of `Object.assign` for a source with unique keys: a key
present in the source takes the source value, any other key keeps the target
value. -/
theorem getProp_objectAssign (t s : JsObject) (k : String)
    (hs : (s.map Prod.fst).Nodup) :
    getProp (objectAssign t s) k =
      match getProp s k with
      | some v => some v
      | none => getProp t k := by
  induction s generalizing t with
  | nil => simp [objectAssign, getProp]
  | cons kv rest ih =>
    simp only [List.map_cons, List.nodup_cons] at hs
    have step : objectAssign t (kv :: rest) = objectAssign (setProp t kv.1 kv.2) rest := rfl
    rw [step, ih _ hs.2]
    rcases eq_or_ne kv.1 k with h | h
    · subst h
      rw [getProp_eq_none rest kv.1 hs.1]
      simp [getProp, getProp_setProp]
    · simp only [getProp, if_neg h, getProp_setProp]
      have hif : (if k = kv.1 then some kv.2 else getProp t k) = getProp t k :=
        if_neg (fun hh => h hh.symm)
      rw [hif]

/-- Assigning the defaults onto the empty object reproduces the defaults. -/
theorem getProp_assign_empty_default (k : String) :
    getProp (objectAssign [] defaultSettingsObj) k = getProp defaultSettingsObj k := by
  rw [getProp_objectAssign _ _ _ (by decide)]
  rcases h : getProp defaultSettingsObj k with _ | v <;> simp [getProp]

/-- C1: with `checkInterval = 0` the sweep returns immediately: it deletes no
file, emits no notice, and the (empty) deletion list leaves every child list
of the vault unchanged, whatever the other settings, the host and the folder
contents are. -/
theorem C1_interval_zero_noop (app : Host) (s : AutoTempCleanerSettings) (now : Int)
    (h0 : s.checkInterval = 0) :
    runCleanUp app s now = { deleted := [], notices := [] } ∧
      removeDeleted sampleChildren (runCleanUp app s now).deleted = sampleChildren := by
  have hrun : runCleanUp app s now = { deleted := [], notices := [] } := by
    unfold runCleanUp
    rw [if_pos h0]
  refine ⟨hrun, ?_⟩
  rw [hrun]
  exact removeDeleted_nil sampleChildren

/-- Witness for C1 at a concrete input: the sample host, the sample settings
with the interval set to 0, and the sample time. -/
theorem C1_interval_zero_noop_witness :
    runCleanUp sampleHost sampleSettingsStopped sampleNow = { deleted := [], notices := [] } :=
  (C1_interval_zero_noop sampleHost sampleSettingsStopped sampleNow rfl).1

/-- C2: with a nonzero interval and `confirmed = false` the sweep emits exactly
the warning notice and performs no file operation: the deleted list is empty,
so every child list of the vault is left unchanged. -/
theorem C2_unconfirmed_warns_and_deletes_nothing (app : Host)
    (s : AutoTempCleanerSettings) (now : Int)
    (hI : s.checkInterval ≠ 0) (hc : s.confirmed = false) :
    runCleanUp app s now = { deleted := [], notices := [warningNotice] } ∧
      removeDeleted sampleChildren (runCleanUp app s now).deleted = sampleChildren := by
  have hrun : runCleanUp app s now = { deleted := [], notices := [warningNotice] } := by
    unfold runCleanUp
    rw [if_neg hI, if_pos hc]
  refine ⟨hrun, ?_⟩
  rw [hrun]
  exact removeDeleted_nil sampleChildren

/-- Witness for C2 at a concrete input: the sample host and settings with the
confirmation toggle off. -/
theorem C2_unconfirmed_warns_and_deletes_nothing_witness :
    runCleanUp sampleHost
        { targetFolder := "tmp", ttlMinites := 60, checkInterval := 10, confirmed := false }
        sampleNow
      = { deleted := [], notices := [warningNotice] } :=
  (C2_unconfirmed_warns_and_deletes_nothing sampleHost
    { targetFolder := "tmp", ttlMinites := 60, checkInterval := 10, confirmed := false }
    sampleNow (by decide) rfl).1

/-- C9: the interval guard runs before the confirmation guard: with
`checkInterval = 0` and `confirmed = false` the sweep emits no notice at all;
in particular the unconfirmed-settings warning is not emitted. -/
theorem C9_interval_guard_before_confirmation (app : Host)
    (s : AutoTempCleanerSettings) (now : Int)
    (h0 : s.checkInterval = 0) (_hc : s.confirmed = false) :
    (runCleanUp app s now).notices = [] ∧
      warningNotice ∉ (runCleanUp app s now).notices := by
  have hrun : runCleanUp app s now = { deleted := [], notices := [] } := by
    unfold runCleanUp
    rw [if_pos h0]
  rw [hrun]
  exact ⟨rfl, by simp⟩

/-- Witness for C9 at a concrete input: interval 0 and confirmation off. -/
theorem C9_interval_guard_before_confirmation_witness :
    (runCleanUp sampleHost
        { targetFolder := "tmp", ttlMinites := 60, checkInterval := 0, confirmed := false }
        sampleNow).notices = []
      ∧ warningNotice ∉ (runCleanUp sampleHost
          { targetFolder := "tmp", ttlMinites := 60, checkInterval := 0, confirmed := false }
          sampleNow).notices :=
  C9_interval_guard_before_confirmation sampleHost
    { targetFolder := "tmp", ttlMinites := 60, checkInterval := 0, confirmed := false }
    sampleNow rfl rfl

/-- C6: when the normalized target path resolves to nothing or to a non-folder
entry, the sweep is a silent no-op: no deletions and no notices (the embedding
is a total function, so no error is raised either). -/
theorem C6_missing_or_nonfolder_target_noop (app : Host)
    (s : AutoTempCleanerSettings) (now : Int)
    (hI : s.checkInterval ≠ 0) (hc : s.confirmed = true)
    (hnf : isTFolder (app.getAbstractFileByPath (app.normalizePath s.targetFolder)) = false) :
    runCleanUp app s now = { deleted := [], notices := [] } := by
  unfold runCleanUp
  rw [if_neg hI, if_neg (by simp [hc])]
  rcases hl : app.getAbstractFileByPath (app.normalizePath s.targetFolder) with _ | e
  · rfl
  · cases e with
    | file p ext ct => rfl
    | folder p cs =>
      rw [hl] at hnf
      simp [isTFolder] at hnf

/-- Witness for C6 at a concrete input: a host that resolves no path. -/
theorem C6_missing_or_nonfolder_target_noop_witness :
    runCleanUp emptyHost sampleSettings sampleNow = { deleted := [], notices := [] } :=
  C6_missing_or_nonfolder_target_noop emptyHost sampleSettings sampleNow
    (by decide) rfl rfl

/-- C4: a sweep that reaches the deletion loop deletes a path exactly when
some direct child of the target folder is a file with that path whose
extension is exactly "md" and whose age strictly exceeds ttlMinites * 60000
milliseconds; a file whose age equals the TTL exactly is therefore not
deleted. -/
theorem C4_delete_iff_md_and_strictly_expired (app : Host)
    (s : AutoTempCleanerSettings) (now : Int)
    (hI : s.checkInterval ≠ 0) (hc : s.confirmed = true)
    (fp : String) (cs : List VaultEntry)
    (hf : app.getAbstractFileByPath (app.normalizePath s.targetFolder)
          = some (VaultEntry.folder fp cs)) (p : String) :
    p ∈ (runCleanUp app s now).deleted ↔
      ∃ ctime, VaultEntry.file p "md" ctime ∈ cs ∧ now - ctime > s.ttlMinites * 60000 :=
  mem_runCleanUp_deleted app s now hI hc fp cs hf p

/-- Witness for C4 at the sample scenario: the md file two hours old is
deleted, the md file exactly at the TTL boundary is not. -/
theorem C4_delete_iff_md_and_strictly_expired_witness :
    "tmp/a.md" ∈ (runCleanUp sampleHost sampleSettings sampleNow).deleted ∧
      "tmp/b.md" ∉ (runCleanUp sampleHost sampleSettings sampleNow).deleted := by
  constructor
  · exact (C4_delete_iff_md_and_strictly_expired sampleHost sampleSettings sampleNow
      (by decide) rfl "tmp" sampleChildren rfl "tmp/a.md").mpr
      ⟨sampleNow - 7200000, by simp [sampleChildren], by decide⟩
  · intro hmem
    obtain ⟨ct, hm, hage⟩ := (C4_delete_iff_md_and_strictly_expired sampleHost
      sampleSettings sampleNow (by decide) rfl "tmp" sampleChildren rfl "tmp/b.md").mp hmem
    simp only [sampleChildren, sampleNow, List.mem_cons, List.mem_singleton,
      VaultEntry.file.injEq, List.not_mem_nil] at hm
    rcases hm with ⟨h1, _, _⟩ | h
    · exact absurd h1 (by decide)
    · rcases h with ⟨_, _, hct⟩ | h
      · subst hct
        revert hage
        decide
      · rcases h with ⟨_, hext, _⟩ | h | h
        · exact absurd hext (by decide)
        · exact VaultEntry.noConfusion h
        · exact h

/-- C5: only direct md children of the target folder can be deleted: if no
direct child is an md file with path p — in particular when p is a file with
another extension, or any file inside a subfolder — then p is not deleted by
any sweep, whatever the settings, the TTL and the ages are. -/
theorem C5_non_md_and_subfolder_files_never_deleted (app : Host)
    (s : AutoTempCleanerSettings) (now : Int)
    (fp : String) (cs : List VaultEntry)
    (hf : app.getAbstractFileByPath (app.normalizePath s.targetFolder)
          = some (VaultEntry.folder fp cs))
    (p : String) (hnp : ∀ ctime : Int, VaultEntry.file p "md" ctime ∉ cs) :
    p ∉ (runCleanUp app s now).deleted := by
  intro hmem
  by_cases h0 : s.checkInterval = 0
  · unfold runCleanUp at hmem
    rw [if_pos h0] at hmem
    simp at hmem
  · by_cases hcf : s.confirmed = false
    · unfold runCleanUp at hmem
      rw [if_neg h0, if_pos hcf] at hmem
      simp at hmem
    · have hc : s.confirmed = true := by
        cases hcc : s.confirmed
        · exact absurd hcc hcf
        · rfl
      obtain ⟨ct, hm, _⟩ := (mem_runCleanUp_deleted app s now h0 hc fp cs hf p).mp hmem
      exact hnp ct hm

/-- Witness for C5 at the sample scenario: the old txt file and the old md
file inside the subfolder are both untouched. -/
theorem C5_non_md_and_subfolder_files_never_deleted_witness :
    "tmp/c.txt" ∉ (runCleanUp sampleHost sampleSettings sampleNow).deleted ∧
      "tmp/sub/old.md" ∉ (runCleanUp sampleHost sampleSettings sampleNow).deleted :=
  ⟨C5_non_md_and_subfolder_files_never_deleted sampleHost sampleSettings sampleNow
      "tmp" sampleChildren rfl "tmp/c.txt" (by intro ct; simp [sampleChildren]),
   C5_non_md_and_subfolder_files_never_deleted sampleHost sampleSettings sampleNow
      "tmp" sampleChildren rfl "tmp/sub/old.md" (by intro ct; simp [sampleChildren])⟩

/-- C7: after the deletion loop the sweep emits exactly one summary notice —
the deleted paths joined by newlines — when at least one file was deleted, and
no notice at all when the deleted list is empty. -/
theorem C7_single_summary_notice (app : Host) (s : AutoTempCleanerSettings)
    (now : Int) (hI : s.checkInterval ≠ 0) (hc : s.confirmed = true)
    (fp : String) (cs : List VaultEntry)
    (hf : app.getAbstractFileByPath (app.normalizePath s.targetFolder)
          = some (VaultEntry.folder fp cs)) :
    ((runCleanUp app s now).deleted ≠ [] →
      (runCleanUp app s now).notices = [deletedNotice (runCleanUp app s now).deleted]) ∧
    ((runCleanUp app s now).deleted = [] → (runCleanUp app s now).notices = []) := by
  have hrun : runCleanUp app s now =
      { deleted := cs.filterMap (cleanUpChild now (toMilliSec s.ttlMinites)),
        notices :=
          if (cs.filterMap (cleanUpChild now (toMilliSec s.ttlMinites))).length > 0
          then [deletedNotice (cs.filterMap (cleanUpChild now (toMilliSec s.ttlMinites)))]
          else [] } := by
    unfold runCleanUp
    rw [if_neg hI, if_neg (by simp [hc]), hf]
  rw [hrun]
  rcases hL : cs.filterMap (cleanUpChild now (toMilliSec s.ttlMinites)) with _ | ⟨q, rest⟩ <;>
    simp

/-- Witness for C7 at the sample scenario, where exactly one file is deleted:
the sweep emits the single newline-joined summary notice. -/
theorem C7_single_summary_notice_witness :
    (runCleanUp sampleHost sampleSettings sampleNow).notices
      = [deletedNotice (runCleanUp sampleHost sampleSettings sampleNow).deleted] :=
  (C7_single_summary_notice sampleHost sampleSettings sampleNow
      (by decide) rfl "tmp" sampleChildren rfl).1 (by decide)

/-- C10: the sweep applies ttlMinites without re-validating the 1 to 10080
bound: the deletion predicate of a sweep that reaches the loop is exactly
now - ctime > ttlMinites * 60000 for every integer ttlMinites, and for every
ttlMinites ≤ 0 every direct-child md file created strictly before now is
deleted. -/
theorem C10_ttl_applied_unvalidated (app : Host) (s : AutoTempCleanerSettings)
    (now : Int) (hI : s.checkInterval ≠ 0) (hc : s.confirmed = true)
    (fp : String) (cs : List VaultEntry)
    (hf : app.getAbstractFileByPath (app.normalizePath s.targetFolder)
          = some (VaultEntry.folder fp cs))
    (p : String) (ctime : Int)
    (hm : VaultEntry.file p "md" ctime ∈ cs) :
    (p ∈ (runCleanUp app s now).deleted ↔
        ∃ ct, VaultEntry.file p "md" ct ∈ cs ∧ now - ct > s.ttlMinites * 60000) ∧
      (s.ttlMinites ≤ 0 → ctime < now → p ∈ (runCleanUp app s now).deleted) := by
  refine ⟨mem_runCleanUp_deleted app s now hI hc fp cs hf p, fun ht hlt => ?_⟩
  exact (mem_runCleanUp_deleted app s now hI hc fp cs hf p).mpr
    ⟨ctime, hm, by omega⟩

/-- Witness for C10 at a concrete input: with ttlMinites = 0 even the md file
exactly at the former one-hour boundary is deleted. -/
theorem C10_ttl_applied_unvalidated_witness :
    "tmp/b.md" ∈ (runCleanUp sampleHost sampleSettingsTtlZero sampleNow).deleted :=
  (C10_ttl_applied_unvalidated sampleHost sampleSettingsTtlZero sampleNow
      (by decide) rfl "tmp" sampleChildren rfl "tmp/b.md" (sampleNow - 3600000)
      (by simp [sampleChildren])).2 (by decide) (by decide)

/-- C3 counterexample: with `checkInterval = 0`, `startInterval` still calls
`window.setInterval` (with period `toMilliSec 0 = 0`), so a periodic sweep
invocation IS pending after it returns — the claim that no repeating timer is
scheduled is false at this concrete input. -/
theorem C3_counterexample_timer_still_scheduled :
    sampleSettingsStopped.checkInterval = 0 ∧
      (startInterval sampleHost sampleSettingsStopped sampleNow).scheduledPeriodMs ≠ none := by
  constructor
  · rfl
  · simp [startInterval]

/-- C3 amended: when `startInterval` runs with `checkInterval = 0` it emits the
stopped notice and invokes one immediate sweep that no-ops (deletes nothing,
emits nothing), but it still schedules the repeating timer — with period 0
milliseconds — and every periodic invocation of the sweep no-ops for as long as
`checkInterval` stays 0. -/
theorem C3_amended_stopped_notice_but_timer_scheduled (app : Host)
    (s : AutoTempCleanerSettings) (now : Int) (h0 : s.checkInterval = 0) :
    (startInterval app s now).notices = [stoppedNotice] ∧
    (startInterval app s now).immediateSweep = { deleted := [], notices := [] } ∧
    (startInterval app s now).scheduledPeriodMs = some 0 ∧
    runCleanUp app s (now + toMilliSec s.checkInterval)
      = { deleted := [], notices := [] } := by
  have hsweep : ∀ n : Int, runCleanUp app s n = { deleted := [], notices := [] } := by
    intro n
    unfold runCleanUp
    rw [if_pos h0]
  refine ⟨?_, ?_, ?_, hsweep _⟩
  · simp [startInterval, h0]
  · simpa [startInterval] using hsweep now
  · simp [startInterval, h0, toMilliSec]

/-- Witness for the amended C3 at a concrete input: the sample host with the
interval set to 0. -/
theorem C3_amended_stopped_notice_but_timer_scheduled_witness :
    (startInterval sampleHost sampleSettingsStopped sampleNow).notices = [stoppedNotice] ∧
      (startInterval sampleHost sampleSettingsStopped sampleNow).scheduledPeriodMs = some 0 :=
  ⟨(C3_amended_stopped_notice_but_timer_scheduled sampleHost sampleSettingsStopped
      sampleNow rfl).1,
   (C3_amended_stopped_notice_but_timer_scheduled sampleHost sampleSettingsStopped
      sampleNow rfl).2.2.1⟩

/-- C8: loading settings merges the persisted record over the defaults: for a
persisted object with unique keys, every key present in it overrides the
default and every key absent from it reads back as its default; with no
persisted data every key reads back as its default; and the default record
holds targetFolder = "tmp", ttlMinites = 1440, checkInterval = 0,
confirmed = false. -/
theorem C8_loadSettings_merges_over_defaults (d : JsObject)
    (hd : (d.map Prod.fst).Nodup) (k : String) :
    (getProp (loadSettings (some d)) k =
      match getProp d k with
      | some v => some v
      | none => getProp defaultSettingsObj k)
    ∧ getProp (loadSettings none) k = getProp defaultSettingsObj k
    ∧ getProp defaultSettingsObj "targetFolder" = some (SettingValue.str "tmp")
    ∧ getProp defaultSettingsObj "ttlMinites" = some (SettingValue.num 1440)
    ∧ getProp defaultSettingsObj "checkInterval" = some (SettingValue.num 0)
    ∧ getProp defaultSettingsObj "confirmed" = some (SettingValue.boolean false) := by
  refine ⟨?_, getProp_assign_empty_default k, rfl, rfl, rfl, rfl⟩
  unfold loadSettings
  rw [getProp_objectAssign _ _ _ hd]
  rcases h : getProp d k with _ | v
  · exact getProp_assign_empty_default k
  · rfl

/-- Witness for C8 at a concrete persisted record overriding only the TTL:
the persisted key wins and an absent key falls back to its default. -/
theorem C8_loadSettings_merges_over_defaults_witness :
    getProp (loadSettings (some [("ttlMinites", SettingValue.num 5)])) "ttlMinites"
        = some (SettingValue.num 5)
      ∧ getProp (loadSettings (some [("ttlMinites", SettingValue.num 5)])) "confirmed"
        = some (SettingValue.boolean false) := by
  constructor
  · have h := (C8_loadSettings_merges_over_defaults
      [("ttlMinites", SettingValue.num 5)] (by decide) "ttlMinites").1
    rw [h]
    decide
  · have h := (C8_loadSettings_merges_over_defaults
      [("ttlMinites", SettingValue.num 5)] (by decide) "confirmed").1
    rw [h]
    decide

end AutoTmpFileRemover
